import Mathlib

/-!
Verification of the fetch-transform-merge pipeline of src/adguardhome_dns.py
(repository xiaobili/china-list).

The script downloads rule files, rewrites every rule line into an
AdGuard Home DNS directive, and merges the per-category outputs into a single
deduplicated configuration file.  Below, the pure core of each Python
function is embedded as a Lean definition carrying the same name; file and
network effects are made explicit parameters (file contents are passed as
values, each network request is represented by its observable outcome).
-/

/-! ## Python string primitives

The script relies on str.strip(), str.startswith(), slicing, str.find and
' '.join.  These are modelled character-exactly on String.data. -/

/-- Characters removed by Python str.strip() with no arguments
(the CPython str.isspace() set, given by code point). -/
def isPySpace (c : Char) : Bool :=
  let n := c.toNat
  n == 32 || n == 9 || n == 10 || n == 13 || n == 11 || n == 12 ||
  (28 ≤ n && n ≤ 31) || n == 133 || n == 160 || n == 5760 ||
  (8192 ≤ n && n ≤ 8202) || n == 8232 || n == 8233 ||
  n == 8239 || n == 8287 || n == 12288

/-- Python str.strip() on a character list: drop whitespace from both ends. -/
def pyStripList (l : List Char) : List Char :=
  ((l.dropWhile isPySpace).reverse.dropWhile isPySpace).reverse

/-- Python str.strip() with no arguments. -/
def pyStrip (s : String) : String :=
  ⟨pyStripList s.data⟩

/-- Helper for pyStartsWith: is the second list an initial segment of the first? -/
def pyStartsWithList : List Char → List Char → Bool
  | _, [] => true
  | [], _ :: _ => false
  | c :: cs, p :: ps => p == c && pyStartsWithList cs ps

/-- Python s.startswith(p). -/
def pyStartsWith (s p : String) : Bool :=
  pyStartsWithList s.data p.data

/-- Python s[n:] (character slicing from index n to the end). -/
def pyDrop (s : String) (n : Nat) : String :=
  ⟨s.data.drop n⟩

/-! ## Line Transformer
(convert_domain_to_adguard_format, lines 269-282, and the per-line skip
rules of convert_file_to_adguard, lines 299-309). -/

/-- Lines 272-273: remove a leading exact-match marker, Python
domain[5:] applied when domain.startswith('full:'). -/
def stripFullTag (d : String) : String :=
  if pyStartsWith d "full:" = true then pyDrop d 5 else d

/-- Lines 269-282: strip the 'full:' marker, strip whitespace, and wrap a
non-empty remainder as [/domain/] followed by the space-joined servers;
an empty remainder gives none (Python returns None). -/
def convert_domain_to_adguard_format (domain : String) (dns_servers : List String) :
    Option String :=
  if pyStrip (stripFullTag domain) = "" then none
  else some ("[/" ++ pyStrip (stripFullTag domain) ++ "/]" ++
             String.intercalate " " dns_servers)

/-- Lines 299-309: one raw line to at most one directive.  The line is
stripped; empty lines and lines starting with '#' or with 'regexp:' are
skipped; the rest go through convert_domain_to_adguard_format. -/
def transform (L : String) (R : List String) : Option String :=
  if pyStrip L = "" then none
  else if pyStartsWith (pyStrip L) "#" = true then none
  else if pyStartsWith (pyStrip L) "regexp:" = true then none
  else convert_domain_to_adguard_format (pyStrip L) R

/-! ### Lemmas about the string primitives -/

theorem dropWhile_all_of_eq_nil {p : Char → Bool} {l : List Char}
    (h : l.dropWhile p = []) : ∀ c ∈ l, p c = true := by
  exact (List.dropWhile_eq_nil_iff).1 h

theorem pyStripList_eq_nil_iff (l : List Char) :
    pyStripList l = [] ↔ ∀ c ∈ l, isPySpace c = true := by
  unfold pyStripList
  rw [List.reverse_eq_nil_iff, List.dropWhile_eq_nil_iff]
  constructor
  · intro h c hc
    have hsplit : l.takeWhile isPySpace ++ l.dropWhile isPySpace = l :=
      List.takeWhile_append_dropWhile isPySpace l
    rw [← hsplit] at hc
    rcases List.mem_append.1 hc with h1 | h2
    · exact List.mem_takeWhile_imp h1
    · exact h c ((List.mem_reverse).2 h2)
  · intro h c hc
    have hc2 : c ∈ l.dropWhile isPySpace := (List.mem_reverse).1 hc
    have : c ∈ l := List.Sublist.mem hc2 (List.dropWhile_sublist isPySpace)
    exact h c this

theorem pyStrip_eq_empty_iff (s : String) :
    pyStrip s = "" ↔ ∀ c ∈ s.data, isPySpace c = true := by
  unfold pyStrip
  constructor
  · intro h
    have : pyStripList s.data = [] := by
      have := congrArg String.data h
      simpa using this
    exact (pyStripList_eq_nil_iff s.data).1 this
  · intro h
    have : pyStripList s.data = [] := (pyStripList_eq_nil_iff s.data).2 h
    simp [this]

/-! ### Claim C4 -/

/-- The claim's rejection condition, stated in the spec's own terms:
empty or whitespace-only, comment marker after trimming, regex marker
after trimming, or empty after removing the exact-match marker and
whitespace. -/
def specNoneCond (L : String) : Prop :=
  (∀ c ∈ L.data, isPySpace c = true)
  ∨ pyStartsWith (pyStrip L) "#" = true
  ∨ pyStartsWith (pyStrip L) "regexp:" = true
  ∨ pyStrip (stripFullTag (pyStrip L)) = ""

/-- C4: for every input line L and resolver set R, transform(L, R) yields no
directive if and only if L is empty or whitespace-only, starts (after
trimming) with the comment marker '#', starts with the regex marker
'regexp:', or reduces to the empty string after stripping the exact-match
marker 'full:' and whitespace. -/
theorem C4_transform_none_iff (L : String) (R : List String) :
    transform L R = none ↔ specNoneCond L := by
  constructor
  · intro h
    by_cases h1 : pyStrip L = ""
    · exact Or.inl ((pyStrip_eq_empty_iff L).1 h1)
    · by_cases h2 : pyStartsWith (pyStrip L) "#" = true
      · exact Or.inr (Or.inl h2)
      · by_cases h3 : pyStartsWith (pyStrip L) "regexp:" = true
        · exact Or.inr (Or.inr (Or.inl h3))
        · refine Or.inr (Or.inr (Or.inr ?_))
          unfold transform at h
          rw [if_neg h1, if_neg h2, if_neg h3] at h
          unfold convert_domain_to_adguard_format at h
          by_cases h4 : pyStrip (stripFullTag (pyStrip L)) = ""
          · exact h4
          · rw [if_neg h4] at h
            exact absurd h (by simp)
  · intro h
    rcases h with hws | h2 | h3 | h4
    · have h1 : pyStrip L = "" := (pyStrip_eq_empty_iff L).2 hws
      simp [transform, h1]
    · by_cases h1 : pyStrip L = ""
      · simp [transform, h1]
      · simp [transform, h1, h2]
    · by_cases h1 : pyStrip L = ""
      · simp [transform, h1]
      · by_cases h2 : pyStartsWith (pyStrip L) "#" = true
        · simp [transform, h1, h2]
        · simp [transform, h1, h2, h3]
    · by_cases h1 : pyStrip L = ""
      · simp [transform, h1]
      · by_cases h2 : pyStartsWith (pyStrip L) "#" = true
        · simp [transform, h1, h2]
        · by_cases h3 : pyStartsWith (pyStrip L) "regexp:" = true
          · simp [transform, h1, h2, h3]
          · simp [transform, convert_domain_to_adguard_format, h1, h2, h3, h4]

/-! ### Claim C5 -/

/-- C5: every produced directive is exactly the bracketed stripped domain
followed by the resolver addresses joined by single spaces, in order, with
no trailing separator. -/
theorem C5_directive_shape (L : String) (R : List String) (s : String)
    (h : transform L R = some s) :
    s = "[/" ++ pyStrip (stripFullTag (pyStrip L)) ++ "/]" ++
        String.intercalate " " R := by
  unfold transform convert_domain_to_adguard_format at h
  by_cases h1 : pyStrip L = ""
  · simp [h1] at h
  · by_cases h2 : pyStartsWith (pyStrip L) "#" = true
    · simp [h1, h2] at h
    · by_cases h3 : pyStartsWith (pyStrip L) "regexp:" = true
      · simp [h1, h2, h3] at h
      · rw [if_neg h1, if_neg h2, if_neg h3] at h
        by_cases h4 : pyStrip (stripFullTag (pyStrip L)) = ""
        · simp [h4] at h
        · rw [if_neg h4] at h
          exact (Option.some_inj.1 h).symm

/-- Witness for C5, the spec's own scenario: raw line full:example.com with
resolver set [114.114.114.114] gives [/example.com/]114.114.114.114. -/
theorem C5_directive_shape_witness :
    "[/example.com/]114.114.114.114" =
      "[/" ++ pyStrip (stripFullTag (pyStrip "full:example.com")) ++ "/]" ++
        String.intercalate " " ["114.114.114.114"] :=
  C5_directive_shape "full:example.com" ["114.114.114.114"]
    "[/example.com/]114.114.114.114" (by decide)

/-! ## Token file (get_token, lines 158-167)

The optional plaintext token file is passed as an Option String: none when
the file is absent (Python FileNotFoundError, which the code answers with a
warning and return None), some contents otherwise.  The code runs
f.read().strip(): the WHOLE file is read and stripped, not just its first
line. -/

/-- Lines 158-167: Python returns f.read().strip(), or None when the file
does not exist (after printing a warning; the run continues). -/
def get_token (tokenFile : Option String) : Option String :=
  match tokenFile with
  | none => none
  | some contents => some (pyStrip contents)

/-- The spec's reading of the token: the first line of the file, trimmed.
Defined from the spec's words, to be compared with get_token. -/
def firstLineTrimmed (c : String) : String :=
  pyStrip ⟨c.data.takeWhile (fun ch => ch != '\n')⟩

/-- C8 counterexample: on a two-line token file the code returns the whole
stripped contents, which differs from the first line trimmed. -/
theorem C8_token_counterexample :
    get_token (some "abc\ndef") = some "abc\ndef" ∧
    firstLineTrimmed "abc\ndef" = "abc" ∧
    get_token (some "abc\ndef") ≠ some (firstLineTrimmed "abc\ndef") := by
  refine ⟨by decide, by decide, by decide⟩

/-- C8 (amended): the bearer token is the ENTIRE token file content trimmed
of whitespace (which coincides with the trimmed first line exactly for
single-line files); when the file is absent the lookup yields none and the
run continues. -/
theorem C8_token_whole_file (c : String) (h : ∀ ch ∈ c.data, ch ≠ '\n') :
    get_token none = none ∧
    get_token (some c) = some (pyStrip c) ∧
    get_token (some c) = some (firstLineTrimmed c) := by
  refine ⟨rfl, rfl, ?_⟩
  have htake : ∀ l : List Char, (∀ ch ∈ l, ch ≠ '\n') →
      l.takeWhile (fun ch => ch != '\n') = l := by
    intro l
    induction l with
    | nil => intro _; rfl
    | cons x xs ih =>
      intro hl
      have hx : x ≠ '\n' := hl x (List.mem_cons_self x xs)
      have hxs : ∀ ch ∈ xs, ch ≠ '\n' := fun ch hch => hl ch (List.mem_cons_of_mem x hch)
      simp only [List.takeWhile_cons]
      simp [hx, ih hxs]
  unfold get_token firstLineTrimmed
  rw [htake c.data h]

/-- Witness for C8_token_whole_file at a concrete single-line token file. -/
theorem C8_token_whole_file_witness :
    get_token none = none ∧
    get_token (some " mytoken123 ") = some (pyStrip " mytoken123 ") ∧
    get_token (some " mytoken123 ") = some (firstLineTrimmed " mytoken123 ") :=
  C8_token_whole_file " mytoken123 " (by decide)

/-! ## Request headers (lines 219-225, also 173-179)

Every download request is built with a User-Agent header and an
Authorization header whose value is the Python conditional expression
f'Bearer {token}' if token else 'Bearer GITHUB_TOKEN'.  A None or empty
token is falsy, so the placeholder string is sent in those cases; the
header itself is always present. -/

def userAgentValue : String :=
  "Mozilla/5.0 (compatible; AdGuardConfigConverter/1.0)"

/-- The Authorization header value of lines 177 and 223 (Python truthiness:
None and the empty string both select the placeholder). -/
def authHeaderValue : Option String → String
  | some t => if t = "" then "Bearer GITHUB_TOKEN" else "Bearer " ++ t
  | none => "Bearer GITHUB_TOKEN"

/-- Lines 219-225: the header dictionary of a download request. -/
def downloadHeaders (token : Option String) : List (String × String) :=
  [("User-Agent", userAgentValue), ("Authorization", authHeaderValue token)]

/-- C7 counterexample: with no token available the request still carries an
Authorization header (the literal placeholder), contradicting the claim that
the header is attached exactly when a token is available; and the code
issues no separate mirror request at all. -/
theorem C7_header_counterexample :
    ("Authorization", "Bearer GITHUB_TOKEN") ∈ downloadHeaders none := by
  decide

/-- C7 (amended): every download request carries an Authorization header:
Bearer followed by the token when a non-empty token is available, and the
literal placeholder Bearer GITHUB_TOKEN when the token is absent or empty;
there is no separate mirror request. -/
theorem C7_header_always_present (t : String) (h : t ≠ "") :
    downloadHeaders (some t) =
      [("User-Agent", userAgentValue), ("Authorization", "Bearer " ++ t)] ∧
    downloadHeaders none =
      [("User-Agent", userAgentValue), ("Authorization", "Bearer GITHUB_TOKEN")] ∧
    downloadHeaders (some "") =
      [("User-Agent", userAgentValue), ("Authorization", "Bearer GITHUB_TOKEN")] := by
  refine ⟨?_, rfl, rfl⟩
  simp [downloadHeaders, authHeaderValue, h]

/-- Witness for C7_header_always_present at a concrete non-empty token. -/
theorem C7_header_always_present_witness :
    downloadHeaders (some "ghp123") =
      [("User-Agent", userAgentValue), ("Authorization", "Bearer " ++ "ghp123")] ∧
    downloadHeaders none =
      [("User-Agent", userAgentValue), ("Authorization", "Bearer GITHUB_TOKEN")] ∧
    downloadHeaders (some "") =
      [("User-Agent", userAgentValue), ("Authorization", "Bearer GITHUB_TOKEN")] :=
  C7_header_always_present "ghp123" (by decide)

/-! ## Release metadata lookup (get_latest_release_info, lines 168-209)

The HTTP call and JSON parse are summarized by their observable outcome: a
call failure (URLError, timeout, JSON decode error) or a parsed assets list
in which each asset may carry a browser_download_url.  sys.exit(n) is
represented as Except.error n; a successfully returned base URL as
Except.ok. -/

structure Asset where
  browser_download_url : Option String

inductive MetaResponse where
  | callFailure (msg : String)
  | payload (assets : List Asset)

/-- Lines 190-194: the first asset carrying a browser_download_url. -/
def firstBrowserUrl : List Asset → Option String
  | [] => none
  | a :: rest =>
    match a.browser_download_url with
    | some u => some u
    | none => firstBrowserUrl rest

/-- Line 199: Python '/'.join(browser_url.split('/')[:-1]) + '/'. -/
def baseUrlOf (u : String) : String :=
  String.intercalate "/" ((u.splitOn "/").dropLast) ++ "/"

/-- Lines 168-209: on a call failure (line 204 or 207) or on a payload with
no assets (line 187) or no usable download URL (line 196, Python
`if not browser_url`, which catches both the missing value None and the
falsy empty string), the code prints an error and calls sys.exit(1);
otherwise it returns the base URL derived from the first
browser_download_url. -/
def get_latest_release_info (resp : MetaResponse) : Except Nat String :=
  match resp with
  | .callFailure _ => .error 1
  | .payload assets =>
    match assets with
    | [] => .error 1
    | _ :: _ =>
      match firstBrowserUrl assets with
      | none => .error 1
      | some u => if u = "" then .error 1 else .ok (baseUrlOf u)

/-- C2 counterexample: a failing metadata call terminates the process with
exit status 1 (sys.exit(1), line 206) instead of returning an absent base
URL and degrading to mirror-only mode. -/
theorem C2_metadata_counterexample :
    get_latest_release_info (.callFailure "urlopen error timed out") = .error 1 := by
  rfl

/-- C2 (amended): when the release-metadata lookup fails, or yields no
assets, or yields no asset with a usable download URL (the value missing
everywhere, or the first present value being the falsy empty string), the
run terminates with exit status 1; there is no mirror-only degradation.
On a usable (non-empty) first asset URL the base prefix is returned. -/
theorem C2_metadata_failure_is_fatal (m u : String) (assets : List Asset)
    (h : ∀ a ∈ assets, a.browser_download_url = none) (hu : u ≠ "") :
    get_latest_release_info (.callFailure m) = .error 1 ∧
    get_latest_release_info (.payload []) = .error 1 ∧
    get_latest_release_info (.payload assets) = .error 1 ∧
    get_latest_release_info (.payload [⟨some ""⟩]) = .error 1 ∧
    get_latest_release_info (.payload [⟨some u⟩]) = .ok (baseUrlOf u) := by
  refine ⟨rfl, rfl, ?_, rfl, ?_⟩
  · have hnone : firstBrowserUrl assets = none := by
      induction assets with
      | nil => rfl
      | cons a rest ih =>
        have ha : a.browser_download_url = none := h a (List.mem_cons_self a rest)
        have hrest : ∀ x ∈ rest, x.browser_download_url = none :=
          fun x hx => h x (List.mem_cons_of_mem a hx)
        simp [firstBrowserUrl, ha, ih hrest]
    cases assets with
    | nil => rfl
    | cons a rest => simp [get_latest_release_info, hnone]
  · simp [get_latest_release_info, firstBrowserUrl, hu]

/-- Witness for C2_metadata_failure_is_fatal on a concrete asset list whose
single asset has no browser_download_url, and a concrete non-empty URL. -/
theorem C2_metadata_failure_is_fatal_witness :
    get_latest_release_info (.callFailure "HTTP Error 403") = .error 1 ∧
    get_latest_release_info (.payload []) = .error 1 ∧
    get_latest_release_info (.payload [⟨none⟩]) = .error 1 ∧
    get_latest_release_info (.payload [⟨some ""⟩]) = .error 1 ∧
    get_latest_release_info
        (.payload [⟨some "https://host/repo/releases/download/202501/china-list.txt"⟩]) =
      .ok (baseUrlOf "https://host/repo/releases/download/202501/china-list.txt") :=
  C2_metadata_failure_is_fatal "HTTP Error 403"
    "https://host/repo/releases/download/202501/china-list.txt" [⟨none⟩]
    (by intro a ha; simp at ha; simp [ha]) (by decide)

/-! ## Fetcher (download_file_with_retry, lines 211-249)

Line 213 builds the single URL base_url + filename; there is no second
candidate.  The loop of lines 215-249 makes up to max_attempts tries on that
one URL.  Each try first deletes an existing destination file (lines
231-233) and only then opens the URL; on success the whole body is written
in one write (lines 235-237) and True is returned; on failure the code
sleeps 2 seconds when tries remain (line 246) and returns False after the
last try (line 249).

The destination file is the Option String state (none = absent); the
outcome of each successive urlopen call is given as a list whose length is
max_attempts: some body for a 2xx response body, none for any failure.  The
result is (final destination state, delivered flag, total seconds slept). -/

/-- Line 213: the complete list of URLs the fetch can ever request. -/
def candidateUrls (base_url filename : String) : List String :=
  [base_url ++ filename]

/-- The retry loop of lines 215-249 (one entry of attempts per try). -/
def retryLoop : Option String → Nat → List (Option String) →
    Option String × Bool × Nat
  | st, slept, [] => (st, false, slept)
  | _, slept, some body :: _ => (some body, true, slept)
  | _, slept, none :: rest =>
      retryLoop none (slept + if rest.isEmpty then 0 else 2) rest

/-- Lines 211-249: run the attempt loop on the prior destination state. -/
def download_file_with_retry (existing : Option String)
    (attempts : List (Option String)) : Option String × Bool × Nat :=
  retryLoop existing 0 attempts

/-- Lines 251-267: count the files whose fetch delivered, and report whether
every file was fetched (a False report only prints a warning; the caller
continues, line 476-477). -/
def download_all_files (files : List (Option String × List (Option String))) :
    Nat × Bool :=
  (files.countP (fun f => (download_file_with_retry f.1 f.2).2.1),
   files.countP (fun f => (download_file_with_retry f.1 f.2).2.1) == files.length)

theorem retryLoop_all_fail (k : Nat) : ∀ (st : Option String) (s : Nat),
    retryLoop st s (List.replicate (k + 1) none) = (none, false, s + 2 * k) := by
  induction k with
  | zero =>
    intro st s
    simp [List.replicate, retryLoop]
  | succ k ih =>
    intro st s
    rw [List.replicate_succ]
    have hne : (List.replicate (k + 1) none : List (Option String)).isEmpty = false := by
      simp [List.replicate_succ]
    rw [retryLoop, hne]
    simp only [Bool.false_eq_true, if_false]
    rw [ih none (s + 2)]
    refine congrArg (fun n => ((none : Option String), false, n)) ?_
    omega

theorem retryLoop_first_success (k : Nat) : ∀ (st : Option String) (s : Nat)
    (b : String) (rest : List (Option String)),
    retryLoop st s (List.replicate k none ++ some b :: rest) =
      (some b, true, s + 2 * k) := by
  induction k with
  | zero =>
    intro st s b rest
    simp [retryLoop]
  | succ k ih =>
    intro st s b rest
    rw [List.replicate_succ, List.cons_append]
    have hne : ((List.replicate k none ++ some b :: rest) :
        List (Option String)).isEmpty = false := by
      cases k with
      | zero => simp
      | succ k => simp [List.replicate_succ]
    rw [retryLoop, hne]
    simp only [Bool.false_eq_true, if_false]
    rw [ih none (s + 2) b rest]
    refine congrArg (fun n => (some b, true, n)) ?_
    omega

/-- C1 counterexample: the candidate list of the code's fetch is the single
primary URL; its final element varies with the primary base URL, so no fixed
mirror URL is ever a final candidate, and a fetch whose primary source fails
every try returns exhausted (here with prior file deleted and 4 seconds of
backoff) instead of moving to a mirror. -/
theorem C1_no_mirror_counterexample :
    (candidateUrls "https://primary.example/releases/" "china-list.txt").getLast? =
      some "https://primary.example/releases/china-list.txt" ∧
    (candidateUrls "https://other.example/releases/" "china-list.txt").getLast? =
      some "https://other.example/releases/china-list.txt" ∧
    ("https://primary.example/releases/china-list.txt" : String) ≠
      "https://other.example/releases/china-list.txt" ∧
    download_file_with_retry (some "stale") [none, none, none] = (none, false, 4) := by
  refine ⟨rfl, rfl, by decide, rfl⟩

/-- C1 (amended): for every rule file the fetch tries the single candidate
URL base_url + filename; that candidate is attempted up to the attempt cap
with a 2-second backoff between failed tries (none after the last).  If the
first success is at try k+1 the body is delivered after 2k seconds of
backoff; if all k+1 tries fail the fetch reports exhausted after 2k seconds
of backoff.  There is no secondary mirror candidate. -/
theorem C1_single_candidate_retry (base fn : String) (existing : Option String)
    (k : Nat) (b : String) (rest : List (Option String)) :
    candidateUrls base fn = [base ++ fn] ∧
    download_file_with_retry existing (List.replicate k none ++ some b :: rest) =
      (some b, true, 2 * k) ∧
    download_file_with_retry existing (List.replicate (k + 1) none) =
      (none, false, 2 * k) := by
  refine ⟨rfl, ?_, ?_⟩
  · rw [download_file_with_retry, retryLoop_first_success k existing 0 b rest]
    simp
  · rw [download_file_with_retry, retryLoop_all_fail k existing 0]
    simp

/-- C6 counterexample: when every attempt fails, the destination file does
NOT keep its prior content: it was deleted at the start of the first
attempt (lines 231-233 run before urlopen), so the file ends up absent. -/
theorem C6_prior_content_counterexample :
    (download_file_with_retry (some "previous contents") [none, none, none]).1 ≠
      some "previous contents" := by
  decide

/-- C6 (amended): each attempt first deletes a pre-existing destination
file and only then performs the request; on the first successful attempt
the full response body is written as a single write, and when every attempt
fails the destination file is absent (its prior content was deleted), the
fetch reports exhausted, and download_all_files merely reports the reduced
success count (0 of 1 here) so the pipeline proceeds with whatever files
are present. -/
theorem C6_delete_then_write (existing : Option String) (k : Nat) (b : String)
    (rest : List (Option String)) :
    (download_file_with_retry existing (List.replicate k none ++ some b :: rest)).1 =
      some b ∧
    (download_file_with_retry existing (List.replicate (k + 1) none)).1 = none ∧
    (download_file_with_retry existing (List.replicate (k + 1) none)).2.1 = false ∧
    download_all_files [(existing, List.replicate (k + 1) none)] = (0, false) := by
  refine ⟨?_, ?_, ?_, ?_⟩
  · rw [download_file_with_retry, retryLoop_first_success k existing 0 b rest]
  · rw [download_file_with_retry, retryLoop_all_fail k existing 0]
  · rw [download_file_with_retry, retryLoop_all_fail k existing 0]
  · have hfail : (download_file_with_retry existing (List.replicate (k + 1) none)).2.1
        = false := by
      rw [download_file_with_retry, retryLoop_all_fail k existing 0]
    simp [download_all_files, hfail, List.countP_cons]

/-! ## File Converter (convert_file_to_adguard, lines 284-314)

The raw file content is a value; Python line iteration is modelled by
splitting on the newline character (every line is stripped before use, so
the retained or dropped line terminators are immaterial).  The function
writes a two-line provenance header, a blank line, then one output line per
produced directive, in input order, by successive appends to the output
text exactly as the successive outfile.write calls do. -/

/-- Python file line iteration over a content string. -/
def pyLines (content : String) : List String :=
  content.splitOn "\n"

/-- Concatenation of a list of strings (successive write calls). -/
def concatAll : List String → String
  | [] => ""
  | s :: ss => s ++ concatAll ss

/-- Lines 284-314: the full text written to the converted file for a given
raw content, resolver list and input file name. -/
def convert_file_to_adguard (content : String) (dns_servers : List String)
    (input_filename : String) : String :=
  (pyLines content).foldl
    (fun out line =>
      match transform line dns_servers with
      | some adguard_line => out ++ adguard_line ++ "\n"
      | none => out)
    ("# 使用DNS服务器: " ++ String.intercalate " " dns_servers ++ "\n" ++
     "# 来源文件: " ++ input_filename ++ "\n\n")

theorem convert_foldl_shape (R : List String) (ls : List String) :
    ∀ acc : String,
      ls.foldl
        (fun out line =>
          match transform line R with
          | some adguard_line => out ++ adguard_line ++ "\n"
          | none => out) acc =
      acc ++ concatAll (ls.filterMap
        (fun l => (transform l R).map (fun a => a ++ "\n"))) := by
  induction ls with
  | nil =>
    intro acc
    simp [concatAll, String.append_empty]
  | cons l ls ih =>
    intro acc
    rw [List.foldl_cons, List.filterMap_cons]
    cases htr : transform l R with
    | none =>
      simp only [htr, Option.map_none]
      exact ih acc
    | some a =>
      simp only [htr, Option.map_some]
      rw [ih (acc ++ a ++ "\n")]
      simp only [concatAll]
      simp only [String.append_assoc]

/-- C9: the converted output is a pure function of exactly the raw file
content, the resolver set and the input file name: two runs on the same
inputs are byte-identical, and the output decomposes as the two-line
provenance header, a blank line, and the directives of the raw lines in
original order - no timestamp or other varying field occurs. -/
theorem C9_converter_deterministic (c : String) (R : List String) (n : String)
    (run1 run2 : String)
    (h1 : run1 = convert_file_to_adguard c R n)
    (h2 : run2 = convert_file_to_adguard c R n) :
    run1 = run2 ∧
    run1 = ("# 使用DNS服务器: " ++ String.intercalate " " R ++ "\n" ++
            "# 来源文件: " ++ n ++ "\n\n") ++
           concatAll ((pyLines c).filterMap
             (fun l => (transform l R).map (fun a => a ++ "\n"))) := by
  refine ⟨h1.trans h2.symm, ?_⟩
  rw [h1]
  unfold convert_file_to_adguard
  exact convert_foldl_shape R (pyLines c) _

/-- Witness for C9: two conversions of a small concrete raw file agree and
have the stated header-plus-directives shape. -/
theorem C9_converter_deterministic_witness :
    convert_file_to_adguard "full:example.com\n# comment\n" ["114.114.114.114"]
        "china-list.txt" =
      convert_file_to_adguard "full:example.com\n# comment\n" ["114.114.114.114"]
        "china-list.txt" ∧
    convert_file_to_adguard "full:example.com\n# comment\n" ["114.114.114.114"]
        "china-list.txt" =
      ("# 使用DNS服务器: " ++ String.intercalate " " ["114.114.114.114"] ++ "\n" ++
       "# 来源文件: " ++ "china-list.txt" ++ "\n\n") ++
      concatAll ((pyLines "full:example.com\n# comment\n").filterMap
        (fun l => (transform l ["114.114.114.114"]).map (fun a => a ++ "\n"))) :=
  C9_converter_deterministic "full:example.com\n# comment\n" ["114.114.114.114"]
    "china-list.txt" _ _ rfl rfl

/-! ## Merge Engine (create_merged_config, lines 334-410)

Converted files are passed per category as (original file name, optional
line list): none when the converted file does not exist on disk (the code
then skips it), some lines otherwise.  Line terminators are dropped from
the modelled lines; the code's per-line tests (line.strip() truthiness,
line.startswith, bracket search, key slice) are unaffected by a trailing
newline since the brackets precede it, and an emitted line is reproduced
verbatim.  The generation timestamp of line 351 is an explicit parameter.
The result is (all lines of the merged artifact, domestic count, foreign
count, total distinct keys). -/

/-- Python line.find('[') (first index; only used when '[' occurs). -/
def bracketOpenIdx (l : String) : Nat :=
  l.data.findIdx (fun c => c == '[')

/-- Python line.find(']') (first index; only used when ']' occurs). -/
def bracketCloseIdx (l : String) : Nat :=
  l.data.findIdx (fun c => c == ']')

/-- Lines 376 and 398: the dedup key
line[line.find('['):line.find(']')+1], with Python slice semantics (an
empty string when the stop index is not beyond the start index). -/
def dedupKey (l : String) : String :=
  ⟨(l.data.drop (bracketOpenIdx l)).take (bracketCloseIdx l + 1 - bracketOpenIdx l)⟩

/-- State threaded through the merge: the processed_domains set (line 346,
as a duplicate-free list), the artifact lines written so far, and the
current category counter. -/
structure MergeSt where
  seen : List String
  out : List String
  count : Nat

/-- Lines 372-380 (and identically 394-402): one line of a converted file.
Content test, comment test, bracket test, then first-seen-wins emission. -/
def mergeLine (st : MergeSt) (line : String) : MergeSt :=
  if pyStrip line = "" then st
  else if pyStartsWith line "#" = true then st
  else if '[' ∈ line.data ∧ ']' ∈ line.data then
    if dedupKey line ∈ st.seen then st
    else { seen := st.seen ++ [dedupKey line],
           out := st.out ++ [line],
           count := st.count + 1 }
  else st

/-- Lines 364-381 body (and 386-403): one converted file.  A missing file
is skipped; an existing one contributes a provenance comment, its deduped
lines, and a closing blank line. -/
def mergeFile (st : MergeSt) (f : String × Option (List String)) : MergeSt :=
  match f.2 with
  | none => st
  | some content =>
    let st1 : MergeSt := { st with out := st.out ++ ["# 来源: " ++ f.1] }
    let st2 := content.foldl mergeLine st1
    { st2 with out := st2.out ++ [""] }

/-- One category's file loop (lines 364-381 or 386-403). -/
def mergeCategory (st : MergeSt) (files : List (String × Option (List String))) :
    MergeSt :=
  files.foldl mergeFile st

/-- Lines 350-359: the fixed header block (the timestamp is a parameter). -/
def mergedHeaderLines (ts : String) : List String :=
  ["# AdGuard Home 中国域名列表配置",
   "# 生成时间: " ++ ts,
   "# 注意: 已自动去除重复域名配置",
   "",
   "# 推荐的上游安全DNS服务器",
   "tls://dns.alidns.com",
   "tls://dot.pub",
   "tls://dns.google",
   "tls://one.one.one.one",
   ""]

/-- Line 362: the domestic section header. -/
def domesticSectionHeader (ddns : List String) : String :=
  "# === 国内域名配置 (使用DNS: " ++ (String.intercalate " " ddns ++ ") ===")

/-- Line 384: the foreign section header. -/
def foreignSectionHeader (fdns : List String) : String :=
  "# === 国外域名配置 (使用DNS: " ++ (String.intercalate " " fdns ++ ") ===")

/-- The state after the domestic loop: empty seen-set and the header block
written, then lines 363-381 (domestic_count starts at 0). -/
def mergeStateD (ts : String) (ddns : List String)
    (domFiles : List (String × Option (List String))) : MergeSt :=
  mergeCategory
    { seen := [],
      out := mergedHeaderLines ts ++ [domesticSectionHeader ddns],
      count := 0 }
    domFiles

/-- The state after the foreign loop: the domestic state with the foreign
section header appended and the counter reset (lines 384-403). -/
def mergeStateF (ts : String) (ddns fdns : List String)
    (domFiles forFiles : List (String × Option (List String))) : MergeSt :=
  mergeCategory
    { mergeStateD ts ddns domFiles with
      out := (mergeStateD ts ddns domFiles).out ++ [foreignSectionHeader fdns],
      count := 0 }
    forFiles

/-- Lines 334-410: the whole merge.  Domestic files are processed first,
then foreign files, both in file-list order, over one shared seen-set; the
counters are per category.  Returns (artifact lines, domestic count,
foreign count, total distinct keys as printed on line 406). -/
def create_merged_config (ts : String) (ddns fdns : List String)
    (domFiles forFiles : List (String × Option (List String))) :
    List String × Nat × Nat × Nat :=
  ((mergeStateF ts ddns fdns domFiles forFiles).out,
   (mergeStateD ts ddns domFiles).count,
   (mergeStateF ts ddns fdns domFiles forFiles).count,
   (mergeStateF ts ddns fdns domFiles forFiles).seen.length)

/-! ### Specification-side reference for the merge -/

/-- A line that passes the merge filters of lines 373-375: non-blank,
not a comment, and containing both brackets. -/
def eligibleLine (l : String) : Prop :=
  pyStrip l ≠ "" ∧ pyStartsWith l "#" = false ∧ '[' ∈ l.data ∧ ']' ∈ l.data

instance decEligibleLine (l : String) : Decidable (eligibleLine l) := by
  unfold eligibleLine
  infer_instance

/-- The directive lines of an artifact: exactly the lines the merge filters
would accept again (in the artifact these are the emitted lines). -/
def directiveLines (out : List String) : List String :=
  out.filter (fun l => decide (eligibleLine l))

/-- Reference, from the spec's words: of the eligible lines, keep exactly
the first occurrence of every dedup key, in stream order, given the keys
already seen.  create_merged_config is proved to refine this. -/
def firstOccurrenceFilter : List String → List String → List String
  | _, [] => []
  | seen, l :: ls =>
    if eligibleLine l then
      if dedupKey l ∈ seen then firstOccurrenceFilter seen ls
      else l :: firstOccurrenceFilter (seen ++ [dedupKey l]) ls
    else firstOccurrenceFilter seen ls

/-- The stream of content lines a category presents to the merge: the lines
of its existing converted files, domestic-before-foreign file-list order. -/
def mergeStream (files : List (String × Option (List String))) : List String :=
  (files.map (fun f => f.2.getD [])).flatten

/-! ### Merge lemmas -/

theorem firstOcc_nil (seen : List String) :
    firstOccurrenceFilter seen [] = [] := rfl

theorem firstOcc_cons (seen : List String) (l : String) (ls : List String) :
    firstOccurrenceFilter seen (l :: ls) =
      if eligibleLine l then
        if dedupKey l ∈ seen then firstOccurrenceFilter seen ls
        else l :: firstOccurrenceFilter (seen ++ [dedupKey l]) ls
      else firstOccurrenceFilter seen ls := rfl

theorem mergeLine_not_eligible (st : MergeSt) (l : String) (h : ¬ eligibleLine l) :
    mergeLine st l = st := by
  unfold mergeLine
  by_cases h1 : pyStrip l = ""
  · simp [h1]
  · by_cases h2 : pyStartsWith l "#" = true
    · simp [h1, h2]
    · by_cases h3 : '[' ∈ l.data ∧ ']' ∈ l.data
      · exact absurd ⟨h1, by simpa using h2, h3.1, h3.2⟩ h
      · simp [h1, h2, h3]

theorem mergeLine_seen (st : MergeSt) (l : String) (h : eligibleLine l)
    (hs : dedupKey l ∈ st.seen) : mergeLine st l = st := by
  obtain ⟨h1, h2, h3, h4⟩ := h
  unfold mergeLine
  rw [if_neg h1, if_neg (by simp [h2]), if_pos ⟨h3, h4⟩, if_pos hs]

theorem mergeLine_new (st : MergeSt) (l : String) (h : eligibleLine l)
    (hs : dedupKey l ∉ st.seen) :
    mergeLine st l = { seen := st.seen ++ [dedupKey l], out := st.out ++ [l],
                       count := st.count + 1 } := by
  obtain ⟨h1, h2, h3, h4⟩ := h
  unfold mergeLine
  rw [if_neg h1, if_neg (by simp [h2]), if_pos ⟨h3, h4⟩, if_neg hs]

theorem foldl_mergeLine (content : List String) : ∀ st : MergeSt,
    content.foldl mergeLine st =
      { seen := st.seen ++ (firstOccurrenceFilter st.seen content).map dedupKey,
        out := st.out ++ firstOccurrenceFilter st.seen content,
        count := st.count + (firstOccurrenceFilter st.seen content).length } := by
  induction content with
  | nil =>
    intro st
    rw [firstOcc_nil]
    simp
  | cons l ls ih =>
    intro st
    rw [List.foldl_cons, firstOcc_cons]
    by_cases he : eligibleLine l
    · by_cases hs : dedupKey l ∈ st.seen
      · rw [mergeLine_seen st l he hs, if_pos he, if_pos hs]
        exact ih st
      · rw [mergeLine_new st l he hs, if_pos he, if_neg hs, ih]
        simp only [List.map_cons, List.length_cons, MergeSt.mk.injEq]
        refine ⟨?_, ?_, ?_⟩
        · simp [List.append_assoc]
        · simp [List.append_assoc]
        · omega
    · rw [mergeLine_not_eligible st l he, if_neg he]
      exact ih st

theorem firstOcc_append (xs ys : List String) : ∀ seen : List String,
    firstOccurrenceFilter seen (xs ++ ys) =
      firstOccurrenceFilter seen xs ++
        firstOccurrenceFilter
          (seen ++ (firstOccurrenceFilter seen xs).map dedupKey) ys := by
  induction xs with
  | nil =>
    intro seen
    rw [List.nil_append, firstOcc_nil, List.nil_append]
    simp
  | cons l xs ih =>
    intro seen
    rw [List.cons_append, firstOcc_cons, firstOcc_cons]
    by_cases he : eligibleLine l
    · by_cases hs : dedupKey l ∈ seen
      · rw [if_pos he, if_pos hs, if_pos he, if_pos hs]
        exact ih seen
      · rw [if_pos he, if_neg hs, if_pos he, if_neg hs]
        rw [ih (seen ++ [dedupKey l]), List.cons_append]
        simp [List.append_assoc]
    · rw [if_neg he, if_neg he]
      exact ih seen

theorem firstOcc_all_eligible (xs : List String) :
    ∀ seen, ∀ l ∈ firstOccurrenceFilter seen xs, eligibleLine l := by
  induction xs with
  | nil =>
    intro seen l hl
    rw [firstOcc_nil] at hl
    exact absurd hl (List.not_mem_nil l)
  | cons x xs ih =>
    intro seen l hl
    rw [firstOcc_cons] at hl
    by_cases he : eligibleLine x
    · by_cases hs : dedupKey x ∈ seen
      · rw [if_pos he, if_pos hs] at hl
        exact ih seen l hl
      · rw [if_pos he, if_neg hs] at hl
        rcases List.mem_cons.1 hl with h | h
        · exact h ▸ he
        · exact ih (seen ++ [dedupKey x]) l h
    · rw [if_neg he] at hl
      exact ih seen l hl

theorem firstOcc_keys (xs : List String) : ∀ seen,
    ((firstOccurrenceFilter seen xs).map dedupKey).Nodup ∧
    ∀ k ∈ (firstOccurrenceFilter seen xs).map dedupKey, k ∉ seen := by
  induction xs with
  | nil =>
    intro seen
    rw [firstOcc_nil]
    simp
  | cons x xs ih =>
    intro seen
    rw [firstOcc_cons]
    by_cases he : eligibleLine x
    · by_cases hs : dedupKey x ∈ seen
      · rw [if_pos he, if_pos hs]
        exact ih seen
      · rw [if_pos he, if_neg hs]
        obtain ⟨hnd, hfresh⟩ := ih (seen ++ [dedupKey x])
        rw [List.map_cons]
        constructor
        · refine List.nodup_cons.2 ⟨?_, hnd⟩
          intro hmem
          exact hfresh (dedupKey x) hmem
            (List.mem_append.2 (Or.inr (List.mem_singleton.2 rfl)))
        · intro k hk
          rcases List.mem_cons.1 hk with h | h
          · exact h ▸ hs
          · intro hkseen
            exact hfresh k h (List.mem_append.2 (Or.inl hkseen))
    · rw [if_neg he]
      exact ih seen

theorem pyStartsWith_hash (s t : String) (h : s.data.head? = some '#') :
    pyStartsWith (s ++ t) "#" = true := by
  unfold pyStartsWith
  have hdata : ("#" : String).data = ['#'] := rfl
  rw [String.data_append, hdata]
  cases hs : s.data with
  | nil =>
    rw [hs] at h
    exact absurd h (by simp)
  | cons c cs =>
    rw [hs] at h
    have hc : c = '#' := by simpa using h
    subst hc
    rw [List.cons_append]
    simp [pyStartsWithList]

theorem not_eligible_of_hash (s t : String) (h : s.data.head? = some '#') :
    ¬ eligibleLine (s ++ t) := by
  intro he
  have htrue := pyStartsWith_hash s t h
  rw [he.2.1] at htrue
  exact absurd htrue (by simp)

theorem directiveLines_append (a b : List String) :
    directiveLines (a ++ b) = directiveLines a ++ directiveLines b := by
  simp [directiveLines, List.filter_append]

theorem directiveLines_eq_nil (ls : List String) (h : ∀ l ∈ ls, ¬ eligibleLine l) :
    directiveLines ls = [] := by
  simp only [directiveLines]
  rw [List.filter_eq_nil_iff]
  intro a ha
  simp [h a ha]

theorem directiveLines_all (ls : List String) (h : ∀ l ∈ ls, eligibleLine l) :
    directiveLines ls = ls := by
  simp only [directiveLines]
  rw [List.filter_eq_self]
  intro a ha
  simp [h a ha]

theorem mergeFile_spec (st : MergeSt) (f : String × Option (List String)) :
    (mergeFile st f).seen =
      st.seen ++ (firstOccurrenceFilter st.seen (f.2.getD [])).map dedupKey ∧
    directiveLines (mergeFile st f).out =
      directiveLines st.out ++ firstOccurrenceFilter st.seen (f.2.getD []) ∧
    (mergeFile st f).count =
      st.count + (firstOccurrenceFilter st.seen (f.2.getD [])).length := by
  obtain ⟨name, oc⟩ := f
  cases oc with
  | none =>
    simp [mergeFile, firstOcc_nil]
  | some content =>
    have hred : mergeFile st (name, some content) =
        { content.foldl mergeLine
            { st with out := st.out ++ ["# 来源: " ++ name] } with
          out := (content.foldl mergeLine
            { st with out := st.out ++ ["# 来源: " ++ name] }).out ++ [""] } := rfl
    rw [hred, foldl_mergeLine]
    refine ⟨rfl, ?_, rfl⟩
    have hc : directiveLines ["# 来源: " ++ name] = [] := by
      apply directiveLines_eq_nil
      intro l hl
      rw [List.mem_singleton] at hl
      subst hl
      exact not_eligible_of_hash "# 来源: " name rfl
    have hb : directiveLines [""] = [] := by
      apply directiveLines_eq_nil
      intro l hl
      rw [List.mem_singleton] at hl
      subst hl
      decide
    have hF : directiveLines (firstOccurrenceFilter st.seen content) =
        firstOccurrenceFilter st.seen content :=
      directiveLines_all _ (firstOcc_all_eligible content st.seen)
    show directiveLines (((st.out ++ ["# 来源: " ++ name]) ++
        firstOccurrenceFilter st.seen content) ++ [""]) =
      directiveLines st.out ++ firstOccurrenceFilter st.seen content
    rw [directiveLines_append, directiveLines_append, directiveLines_append,
      hc, hb, hF, List.append_nil, List.append_nil]

theorem mergeCategory_spec (files : List (String × Option (List String))) :
    ∀ st : MergeSt,
    (mergeCategory st files).seen =
      st.seen ++ (firstOccurrenceFilter st.seen (mergeStream files)).map dedupKey ∧
    directiveLines (mergeCategory st files).out =
      directiveLines st.out ++ firstOccurrenceFilter st.seen (mergeStream files) ∧
    (mergeCategory st files).count =
      st.count + (firstOccurrenceFilter st.seen (mergeStream files)).length := by
  induction files with
  | nil =>
    intro st
    refine ⟨?_, ?_, ?_⟩ <;> simp [mergeCategory, mergeStream, firstOcc_nil]
  | cons f fs ih =>
    intro st
    have hcat : mergeCategory st (f :: fs) = mergeCategory (mergeFile st f) fs := rfl
    have hstream : mergeStream (f :: fs) = f.2.getD [] ++ mergeStream fs := by
      simp [mergeStream]
    obtain ⟨hs1, ho1, hc1⟩ := mergeFile_spec st f
    obtain ⟨hs2, ho2, hc2⟩ := ih (mergeFile st f)
    rw [hs1] at hs2 hc2
    rw [hcat, hstream, firstOcc_append]
    refine ⟨?_, ?_, ?_⟩
    · rw [hs2]
      simp [List.append_assoc, List.map_append]
    · rw [ho2, ho1, hs1]
      simp [List.append_assoc]
    · rw [hc2, hc1, List.length_append]
      omega

theorem header_no_directives (ts : String) (ddns : List String) :
    directiveLines (mergedHeaderLines ts ++ [domesticSectionHeader ddns]) = [] := by
  apply directiveLines_eq_nil
  intro l hl
  rw [List.mem_append] at hl
  rcases hl with hl | hl
  · unfold mergedHeaderLines at hl
    simp only [List.mem_cons, List.not_mem_nil, or_false] at hl
    rcases hl with h | h | h | h | h | h | h | h | h | h
    · subst h; decide
    · subst h; exact not_eligible_of_hash "# 生成时间: " ts rfl
    · subst h; decide
    · subst h; decide
    · subst h; decide
    · subst h; decide
    · subst h; decide
    · subst h; decide
    · subst h; decide
    · subst h; decide
  · rw [List.mem_singleton] at hl
    subst hl
    unfold domesticSectionHeader
    exact not_eligible_of_hash "# === 国内域名配置 (使用DNS: "
      (String.intercalate " " ddns ++ ") ===") rfl

theorem foreign_header_no_directives (fdns : List String) :
    directiveLines [foreignSectionHeader fdns] = [] := by
  apply directiveLines_eq_nil
  intro l hl
  rw [List.mem_singleton] at hl
  subst hl
  unfold foreignSectionHeader
  exact not_eligible_of_hash "# === 国外域名配置 (使用DNS: "
    (String.intercalate " " fdns ++ ") ===") rfl

theorem create_merged_spec (ts : String) (ddns fdns : List String)
    (domFiles forFiles : List (String × Option (List String))) :
    directiveLines (create_merged_config ts ddns fdns domFiles forFiles).1 =
      firstOccurrenceFilter [] (mergeStream domFiles ++ mergeStream forFiles) ∧
    (create_merged_config ts ddns fdns domFiles forFiles).2.1 +
        (create_merged_config ts ddns fdns domFiles forFiles).2.2.1 =
      (firstOccurrenceFilter []
        (mergeStream domFiles ++ mergeStream forFiles)).length ∧
    (create_merged_config ts ddns fdns domFiles forFiles).2.2.2 =
      (firstOccurrenceFilter []
        (mergeStream domFiles ++ mergeStream forFiles)).length := by
  obtain ⟨hs1, ho1, hc1⟩ := mergeCategory_spec domFiles
    { seen := [], out := mergedHeaderLines ts ++ [domesticSectionHeader ddns],
      count := 0 }
  obtain ⟨hs2, ho2, hc2⟩ := mergeCategory_spec forFiles
    { mergeStateD ts ddns domFiles with
      out := (mergeStateD ts ddns domFiles).out ++ [foreignSectionHeader fdns],
      count := 0 }
  dsimp only at hs1 ho1 hc1 hs2 ho2 hc2
  have hDdef : mergeStateD ts ddns domFiles = mergeCategory
      { seen := [], out := mergedHeaderLines ts ++ [domesticSectionHeader ddns],
        count := 0 } domFiles := rfl
  rw [← hDdef] at hs1 ho1 hc1
  have hFdef : mergeStateF ts ddns fdns domFiles forFiles = mergeCategory
      { mergeStateD ts ddns domFiles with
        out := (mergeStateD ts ddns domFiles).out ++ [foreignSectionHeader fdns],
        count := 0 } forFiles := rfl
  rw [← hFdef] at hs2 ho2 hc2
  rw [directiveLines_append, ho1, header_no_directives,
    foreign_header_no_directives] at ho2
  simp only [create_merged_config]
  refine ⟨?_, ?_, ?_⟩
  · rw [ho2, hs1, firstOcc_append]
    simp
  · rw [hc1, hc2, hs1, firstOcc_append]
    simp [List.length_append]
  · rw [hs2, hs1, firstOcc_append]
    simp [List.length_append, List.length_map]

/-! ### Claims C3 and C10 -/

/-- C3: in every merge run, the dedup keys of the directive lines of the
merged artifact are pairwise distinct; the artifact's directive lines are
exactly the first occurrence per key of the eligible content lines of the
existing converted files, domestic files first then foreign files in
file-list order (one shared seen-set); and later duplicate occurrences are
not counted: the two per-category counters together count exactly the
emitted lines. -/
theorem C3_merge_dedup (ts : String) (ddns fdns : List String)
    (domFiles forFiles : List (String × Option (List String))) :
    ((directiveLines (create_merged_config ts ddns fdns domFiles forFiles).1).map
        dedupKey).Nodup ∧
    directiveLines (create_merged_config ts ddns fdns domFiles forFiles).1 =
      firstOccurrenceFilter [] (mergeStream domFiles ++ mergeStream forFiles) ∧
    (create_merged_config ts ddns fdns domFiles forFiles).2.1 +
        (create_merged_config ts ddns fdns domFiles forFiles).2.2.1 =
      (directiveLines (create_merged_config ts ddns fdns domFiles forFiles).1).length := by
  obtain ⟨h1, h2, h3⟩ := create_merged_spec ts ddns fdns domFiles forFiles
  refine ⟨?_, h1, ?_⟩
  · rw [h1]
    exact (firstOcc_keys (mergeStream domFiles ++ mergeStream forFiles) []).1
  · rw [h1]
    exact h2

theorem dedupKey_empty_of_reversed (l : String)
    (h : bracketCloseIdx l < bracketOpenIdx l) : dedupKey l = "" := by
  unfold dedupKey
  have hz : bracketCloseIdx l + 1 - bracketOpenIdx l = 0 := by omega
  rw [hz, List.take_zero]

theorem filter_same_key_len_le_one (L : List String) (p : String → Bool)
    (hnd : (L.map dedupKey).Nodup)
    (hp : ∀ l, p l = true → dedupKey l = "") :
    (L.filter p).length ≤ 1 := by
  induction L with
  | nil => simp
  | cons x L ih =>
    rw [List.map_cons, List.nodup_cons] at hnd
    obtain ⟨hx, hL⟩ := hnd
    by_cases hpx : p x = true
    · have hempty : L.filter p = [] := by
        rw [List.filter_eq_nil_iff]
        intro a ha hpa
        exact hx (List.mem_map.2 ⟨a, ha, by rw [hp a hpa, hp x hpx]⟩)
      simp [List.filter_cons, hpx, hempty]
    · simp only [List.filter_cons, hpx, if_false]
      exact ih hL

/-- C10: the dedup-key extraction line[line.find('['):line.find(']')+1] is a
total function on lines containing both brackets; when the first ']'
precedes the first '[' the Python slice is the empty string, so all such
malformed lines share the single empty key, and in any merged artifact at
most one directive line with reversed brackets is ever emitted. -/
theorem C10_dedup_key_extraction :
    (∀ l : String, bracketCloseIdx l < bracketOpenIdx l → dedupKey l = "") ∧
    (∀ (ts : String) (ddns fdns : List String)
        (domFiles forFiles : List (String × Option (List String))),
      ((directiveLines (create_merged_config ts ddns fdns domFiles forFiles).1).filter
          (fun l => decide (bracketCloseIdx l < bracketOpenIdx l))).length ≤ 1) := by
  refine ⟨dedupKey_empty_of_reversed, ?_⟩
  intro ts ddns fdns domFiles forFiles
  obtain ⟨h1, h2, h3⟩ := create_merged_spec ts ddns fdns domFiles forFiles
  rw [h1]
  refine filter_same_key_len_le_one _ _
    ((firstOcc_keys (mergeStream domFiles ++ mergeStream forFiles) []).1) ?_
  intro l hl
  exact dedupKey_empty_of_reversed l (of_decide_eq_true hl)

/-- Witness for C10 on a concrete malformed line whose first ']' precedes
its first '['. -/
theorem C10_dedup_key_extraction_witness :
    dedupKey "]first[" = "" :=
  C10_dedup_key_extraction.1 "]first[" (by decide)
